import Mathlib

/-!
Shallow embedding of the core of the `jkind889/hackathon` privacy-audit
repository (files `src/CookieAudit.py` and `src/app.py`) and proofs about it.

Python strings are modelled as `List Char`; Python string methods
(`strip`, `lower`, `split`, slicing) are modelled over the ASCII range,
which is the range the rule tables and the claims exercise.  Enumerated
tags (category names, severities, grades, risk levels, consent states)
are kept as Lean `String`s, compared only for equality.
-/

namespace Audit

/-- Whitespace characters recognised by Python `str.strip` / `\s` (ASCII range). -/
def isPySpace (c : Char) : Bool :=
  c = ' ' || c = '\t' || c = '\n' || c = '\x0d' || c = '\x0b' || c = '\x0c'

/-- Python `str.strip()` (ASCII whitespace). -/
def pstrip (s : List Char) : List Char :=
  ((s.dropWhile isPySpace).reverse.dropWhile isPySpace).reverse

/-- Python `str.lower()` (ASCII case map). -/
def lowerStr (s : List Char) : List Char :=
  s.map Char.toLower

/-- Code-point lexicographic `<=` on strings, as Python compares `str` values. -/
def lexLe : List Char → List Char → Bool
  | [], _ => true
  | _ :: _, [] => false
  | a :: s, b :: t => if a = b then lexLe s t else decide (a < b)

/-- Ordering key used by `sorted(..., key=str.lower)`. -/
def lowerLe (a b : List Char) : Bool :=
  lexLe (lowerStr a) (lowerStr b)

/-- Substring test: models `re.search` of a literal pattern, and Python `in`. -/
def containsSub (pat : List Char) : List Char → Bool
  | [] => decide (pat = [])
  | c :: rest => pat.isPrefixOf (c :: rest) || containsSub pat rest

/-- One admissible iteration order of a Python `set` built from a list:
first occurrences, in first-occurrence order.  (CPython's set order is
unspecified; every property proved below about `set`-derived data is
insensitive to the order picked here, except where noted.) -/
def dedupFirstAux {α : Type} [DecidableEq α] : List α → List α → List α
  | _, [] => []
  | seen, x :: rest =>
    if x ∈ seen then dedupFirstAux seen rest
    else x :: dedupFirstAux (x :: seen) rest

/-- Model of `set(l)` as a list, see `dedupFirstAux`. -/
def dedupFirst {α : Type} [DecidableEq α] (l : List α) : List α :=
  dedupFirstAux [] l

/-- Delimiters of `re.split(r"[\n,;]+", raw_text)` in `parse_observed_cookies`. -/
def isCookieDelim (c : Char) : Bool :=
  c = '\n' || c = ',' || c = ';'

/-- Split a string at every delimiter character.  Splitting on single
characters instead of runs produces extra empty tokens, which the caller
filters away exactly as the Python list comprehension does. -/
def splitDelim : List Char → List (List Char)
  | [] => [[]]
  | c :: rest =>
    if isCookieDelim c then [] :: splitDelim rest
    else
      match splitDelim rest with
      | [] => [[c]]
      | t :: ts => (c :: t) :: ts

/-- The stripped, non-empty tokens of the raw observed-cookie text:
`[part.strip() for part in re.split(r"[\n,;]+", raw_text) if part.strip()]`. -/
def cookieTokens (raw : List Char) : List (List Char) :=
  ((splitDelim raw).map pstrip).filter (fun t => !t.isEmpty)

/-- Per-token handling in `parse_observed_cookies`:
`token.split("=", 1)[0].strip()` when the token contains `=`. -/
def cookieName (tok : List Char) : List Char :=
  if tok.contains '=' then pstrip (tok.takeWhile (fun c => !(c == '='))) else tok

/-- The name list before `sorted(set(...))` in `parse_observed_cookies`. -/
def cookieNames (raw : List Char) : List (List Char) :=
  ((cookieTokens raw).map cookieName).filter (fun t => !t.isEmpty)

/-- `CookieAudit.parse_observed_cookies`.  `sorted(set(names), key=str.lower)` is
modelled as a stable insertion sort by the lower-cased key over one admissible
set order (`dedupFirst`). -/
def parse_observed_cookies (raw : List Char) : List (List Char) :=
  if raw.isEmpty then []
  else
    List.insertionSort (fun a b => lowerLe a b = true) (dedupFirst (cookieNames raw))

/-- `TRACKER_PATTERNS["analytics"]`. -/
def analyticsPatterns : List (List Char) :=
  ["_ga".data, "_gid".data, "_gat".data, "analytics".data, "mixpanel".data,
   "amplitude".data, "segment".data]

/-- `TRACKER_PATTERNS["advertising"]`.  The regex `ad[sx]?` matches (under
`re.search`) exactly when the literal `ad` occurs in the name, because the
`[sx]?` part may match the empty string; it is therefore embedded as the
literal pattern `ad`. -/
def advertisingPatterns : List (List Char) :=
  ["_fbp".data, "doubleclick".data, "ad".data, "ttclid".data, "gcl_au".data,
   "criteo".data]

/-- `TRACKER_PATTERNS["session"]`. -/
def sessionPatterns : List (List Char) :=
  ["session".data, "sess".data, "csrf".data, "auth".data, "token".data]

/-- `TRACKER_PATTERNS["functional"]`. -/
def functionalPatterns : List (List Char) :=
  ["pref".data, "lang".data, "theme".data, "remember".data]

/-- `CookieAudit.TRACKER_PATTERNS`, in the dict's (insertion) iteration order. -/
def TRACKER_PATTERNS : List (String × List (List Char)) :=
  [("analytics", analyticsPatterns), ("advertising", advertisingPatterns),
   ("session", sessionPatterns), ("functional", functionalPatterns)]

/-- Whether any pattern of a category matches (searches inside) the
lower-cased name. -/
def categoryMatches (pats : List (List Char)) (lower : List Char) : Bool :=
  pats.any (fun p => containsSub p lower)

/-- `CookieAudit.classify_cookie`: first category whose any pattern matches,
otherwise `"unknown"`. -/
def classify_cookie (name : List Char) : String :=
  match TRACKER_PATTERNS.find? (fun cp => categoryMatches cp.2 (lowerStr name)) with
  | some cp => cp.1
  | none => "unknown"

/-- `CookieAudit.DISCLOSURE_TERMS`. -/
def DISCLOSURE_TERMS : List (String × List (List Char)) :=
  [("analytics", ["analytics".data, "measurement".data, "google analytics".data,
                  "mixpanel".data, "amplitude".data, "segment".data]),
   ("advertising", ["advertising".data, "ad network".data, "targeted ads".data,
                    "remarketing".data, "doubleclick".data, "facebook pixel".data]),
   ("session", ["strictly necessary".data, "essential cookies".data,
                "authentication".data, "session cookies".data]),
   ("functional", ["preferences".data, "functional cookies".data,
                   "site settings".data, "language settings".data])]

/-- `CookieAudit._policy_disclosures`, read back per category
(`disclosed.get(cat, False)`). -/
def disclosed (policy : List Char) (cat : String) : Bool :=
  match DISCLOSURE_TERMS.lookup cat with
  | some terms => terms.any (fun t => containsSub t (lowerStr policy))
  | none => false

/-- One entry of the grader's `issues` list. -/
structure Issue where
  severity : String
  title : String
  detail : String
deriving DecidableEq, Repr

/-- One classified cookie (`{"name": ..., "category": ...}`). -/
structure CookieRec where
  name : List Char
  category : String
deriving DecidableEq, Repr

/-- The grader's `category_counts` dict (fixed key set). -/
structure CategoryCounts where
  analytics : Nat
  advertising : Nat
  session : Nat
  functional : Nat
  unknown : Nat
deriving DecidableEq, Repr

/-- The counting loop of `grade_cookie_truthfulness`; `classify_cookie` only
returns the five keys of the dict, so the last bucket is exactly `unknown`. -/
def countsOf (cls : List CookieRec) : CategoryCounts :=
  ⟨cls.countP (fun c => c.category == "analytics"),
   cls.countP (fun c => c.category == "advertising"),
   cls.countP (fun c => c.category == "session"),
   cls.countP (fun c => c.category == "functional"),
   cls.countP (fun c => c.category != "analytics" && c.category != "advertising" &&
               c.category != "session" && c.category != "functional")⟩

/-- Rank used by the issue sort: `{"high": 0, "medium": 1, "low": 2}.get(sev, 3)`. -/
def sevRank (s : String) : Nat :=
  if s = "high" then 0 else if s = "medium" then 1 else if s = "low" then 2 else 3

/-- `issues.sort(key=...)`: Python's sort is stable, and the key only takes the
values 0..3, so the stable sort is exactly the concatenation of the four
rank buckets in input order. -/
def sortIssues (l : List Issue) : List Issue :=
  l.filter (fun i => sevRank i.severity == 0) ++
  l.filter (fun i => sevRank i.severity == 1) ++
  l.filter (fun i => sevRank i.severity == 2) ++
  l.filter (fun i => sevRank i.severity == 3)

/-- The opt-out test of rule 5 of the grader:
`"opt-out" not in policy_text.lower() and "do not sell" not in policy_text.lower()`. -/
def optOutMissing (policy : List Char) : Bool :=
  !(containsSub "opt-out".data (lowerStr policy)) &&
  !(containsSub "do not sell".data (lowerStr policy))

/-- Result record of `grade_cookie_truthfulness`. -/
structure TruthResult where
  score : Int
  grade : String
  risk_level : String
  issues : List Issue
  cookies : List CookieRec
  category_counts : CategoryCounts
  consent_state : String
deriving DecidableEq, Repr

/-- Issue emitted by rule 1 (non-essential cookies before consent). -/
def consentIssue : Issue :=
  ⟨"high", "Non-essential cookies loaded before consent",
   "Analytics/advertising cookies were observed when they should usually be blocked."⟩

/-- Issue emitted by rule 2 (undisclosed analytics). -/
def analyticsIssue : Issue :=
  ⟨"high", "Undisclosed analytics tracking",
   "Analytics-like cookies were observed but analytics disclosure language is weak or missing."⟩

/-- Issue emitted by rule 3 (undisclosed advertising). -/
def advertisingIssue : Issue :=
  ⟨"high", "Undisclosed advertising tracking",
   "Ad/remarketing-like cookies were observed but advertising disclosure language is weak or missing."⟩

/-- Issue emitted by rule 4 (many unknown cookies). -/
def unknownIssue : Issue :=
  ⟨"medium", "Many unknown cookies",
   "Several cookies could not be classified; manually verify vendor and purpose."⟩

/-- Issue emitted by rule 5 (weak opt-out language). -/
def optOutIssue : Issue :=
  ⟨"medium", "Weak opt-out language",
   "Policy text does not clearly mention opt-out or Do Not Sell controls."⟩

/-- `CookieAudit.grade_cookie_truthfulness`. -/
def grade_cookie_truthfulness (policy ck : List Char) (consent : String) :
    TruthResult :=
  let classifications :=
    (parse_observed_cookies ck).map (fun n => CookieRec.mk n (classify_cookie n))
  let counts := countsOf classifications
  let nonEssential := counts.analytics + counts.advertising
  let rule1 := (consent = "before_consent" ∨ consent = "after_reject") ∧ 0 < nonEssential
  let s1 : Int :=
    if rule1 then 100 - min 45 ((nonEssential : Int) * 12) else 100
  let i1 : List Issue := if rule1 then [consentIssue] else []
  let rule2 := 0 < counts.analytics ∧ disclosed policy "analytics" = false
  let s2 : Int := if rule2 then s1 - 20 else s1
  let i2 := i1 ++ (if rule2 then [analyticsIssue] else [])
  let rule3 := 0 < counts.advertising ∧ disclosed policy "advertising" = false
  let s3 : Int := if rule3 then s2 - 25 else s2
  let i3 := i2 ++ (if rule3 then [advertisingIssue] else [])
  let rule4 := 3 < counts.unknown
  let s4 : Int := if rule4 then s3 - 10 else s3
  let i4 := i3 ++ (if rule4 then [unknownIssue] else [])
  let rule5 := optOutMissing policy = true
  let s5 : Int := if rule5 then s4 - 8 else s4
  let i5 := i4 ++ (if rule5 then [optOutIssue] else [])
  let score := max 0 (min 100 s5)
  let grade : String :=
    if 85 ≤ score then "A" else if 70 ≤ score then "B" else if 55 ≤ score then "C"
    else if 40 ≤ score then "D" else "F"
  let risk : String :=
    if 85 ≤ score then "Low" else if 70 ≤ score then "Low" else if 55 ≤ score then "Medium"
    else if 40 ≤ score then "High" else "High"
  ⟨score, grade, risk, sortIssues i5, classifications, counts, consent⟩

/-- One `{term, count}` hit of the external policy-analysis report. -/
structure Hit where
  term : List Char
  count : Int
deriving DecidableEq, Repr

/-- The external report consumed by `_extract_flaws`: a mapping from category
name to subgroups, each a mapping from subgroup name to hits, in iteration
order. -/
structure Report where
  categories : List (List Char × List (List Char × List Hit))
deriving DecidableEq, Repr

/-- One extracted flaw record. -/
structure Flaw where
  category : List Char
  subgroup : List Char
  term : List Char
  count : Int
  severity : String
  reason : String
deriving DecidableEq, Repr

/-- `app._severity_rank` is the same table as the issue rank. -/
def severity_rank (s : String) : Nat := sevRank s

/-- The inline severity chain of `_extract_flaws`, keyed on
(category-name prefix, subgroup name). -/
def severityFor (categoryName subgroupName : List Char) : String :=
  if "5.".data.isPrefixOf categoryName then "high"
  else if "2.".data.isPrefixOf categoryName then "high"
  else if "1.".data.isPrefixOf categoryName ∧ subgroupName = "High-Risk Identifiers".data
    then "high"
  else if "4.".data.isPrefixOf categoryName ∧ subgroupName = "Timelines".data then "low"
  else "medium"

/-- `app._flaw_reason` (its `term` argument is unused in the source too). -/
def flaw_reason (categoryName subgroupName : List Char) (_term : List Char) : String :=
  if "5.".data.isPrefixOf categoryName then "Vague promise with legal wiggle room."
  else if "2.".data.isPrefixOf categoryName then "Data may leave trusted boundaries."
  else if "1.".data.isPrefixOf categoryName ∧ subgroupName = "High-Risk Identifiers".data
    then "Sensitive identifiers enable direct tracking."
  else if "1.".data.isPrefixOf categoryName ∧ subgroupName = "Automated Tracking".data
    then "Passive tracking likely without awareness."
  else if "3.".data.isPrefixOf categoryName then "User control rights may be limited."
  else if "4.".data.isPrefixOf categoryName ∧ subgroupName = "Timelines".data
    then "Retention window may be too broad."
  else if "4.".data.isPrefixOf categoryName then "Security wording is broad, noncommittal."
  else "Potential privacy risk indicator term."

/-- Builds the flaw dict appended for one hit. -/
def mkFlaw (cn sn : List Char) (h : Hit) : Flaw :=
  ⟨cn, sn, h.term, h.count, severityFor cn sn, flaw_reason cn sn h.term⟩

/-- The sort key comparison of `_extract_flaws`:
`(severity rank asc, count desc, term.lower() asc)`, as a boolean total preorder. -/
def flawLeB (a b : Flaw) : Bool :=
  if sevRank a.severity ≠ sevRank b.severity then decide (sevRank a.severity < sevRank b.severity)
  else if a.count ≠ b.count then decide (b.count < a.count)
  else lexLe (lowerStr a.term) (lowerStr b.term)

/-- `app._extract_flaws`: flatten the report into flaw records, then
`flaws.sort(key=...)` (Python's stable sort, modelled by a stable insertion
sort under the same total preorder). -/
def extract_flaws (r : Report) : List Flaw :=
  let flaws :=
    r.categories.flatMap (fun cd => cd.2.flatMap (fun sg => sg.2.map (mkFlaw cd.1 sg.1)))
  List.insertionSort (fun a b => flawLeB a b = true) flaws

/-- Normalisation applied by `_grade_to_points` and `_grade_to_risk`:
`(letter or "").strip().upper()`. -/
def upperStrip (letter : String) : String :=
  String.mk ((pstrip letter.data).map Char.toUpper)

/-- `app._grade_to_points` (`.get(..., 0.0)` with the five-letter table). -/
def grade_to_points (letter : String) : ℚ :=
  let norm := upperStrip letter
  if norm = "A" then 4 else if norm = "B" then 3 else if norm = "C" then 2
  else if norm = "D" then 1 else if norm = "F" then 0 else 0

/-- `app._points_to_grade`. -/
def points_to_grade (points : ℚ) : String :=
  if 3.5 ≤ points then "A" else if 2.5 ≤ points then "B" else if 1.5 ≤ points then "C"
  else if 0.5 ≤ points then "D" else "F"

/-- `app._grade_to_risk`. -/
def grade_to_risk (letter : String) : String :=
  let upper := upperStrip letter
  if upper = "A" ∨ upper = "B" then "Low" else if upper = "C" then "Medium" else "High"

/-- One `{label, grade}` component of the final grade. -/
structure GradeComponent where
  label : String
  grade : String
deriving DecidableEq, Repr

/-- The final-grade block of `app.compare_cookie_audit` (the spec's
`aggregate_grades`): empty component list produces no grade, otherwise the
unweighted average of the points is mapped back to a letter and risk.
Python's float arithmetic on these values (sums of integers divided by small
counts, against thresholds k + 1/2) is exact enough that rationals model it
faithfully. -/
def aggregate_grades (comps : List GradeComponent) : Option (String × String) :=
  if comps.isEmpty then none
  else
    let avg : ℚ := ((comps.map (fun c => grade_to_points c.grade)).sum) / (comps.length : ℚ)
    some (points_to_grade avg, grade_to_risk (points_to_grade avg))

/-- The opening-brace character, `\x7b`. -/
def braceL : Char := Char.ofNat 123

/-- The closing-brace character, `\x7d`. -/
def braceR : Char := Char.ofNat 125

/-- The single-quote character, `\x27`. -/
def squote : Char := Char.ofNat 39

/-- A decoded JSON value as `json.loads` produces it (object keys in
occurrence order; lookups take the last occurrence, as a Python dict does). -/
inductive JVal where
  | jnull : JVal
  | jbool : Bool → JVal
  | jnum : Int → JVal
  | jstr : List Char → JVal
  | jarr : List JVal → JVal
  | jobj : List (List Char × JVal) → JVal

/-- Python dict lookup on decoded object members: the last binding of a
duplicated key wins. -/
def pyGet (kvs : List (List Char × JVal)) (k : List Char) : Option JVal :=
  (kvs.reverse.find? (fun kv => kv.1 == k)).map (fun kv => kv.2)

/-- `dict.get(k, d)`. -/
def pyGetD (kvs : List (List Char × JVal)) (k : List Char) (d : JVal) : JVal :=
  (pyGet kvs k).getD d

/-- Python `repr` of a decoded JSON value, simplified: strings are always
single-quoted and their content is emitted verbatim (the escaping `repr`
applies to quotes and control characters inside strings is not modelled;
none of the claims depends on it). -/
def pyRepr : JVal → List Char
  | .jnull => "None".data
  | .jbool b => if b then "True".data else "False".data
  | .jnum n => (toString n).data
  | .jstr s => squote :: s ++ [squote]
  | .jarr l =>
    '[' :: ((l.attach.map (fun x => pyRepr x.1)).intersperse ", ".data).flatten ++ "]".data
  | .jobj kvs =>
    braceL ::
      ((kvs.attach.map (fun x =>
          squote :: x.1.1 ++ [squote] ++ ": ".data ++ pyRepr x.1.2)).intersperse
        ", ".data).flatten ++ [braceR]
decreasing_by
  · have := List.sizeOf_lt_of_mem x.2; simp at this ⊢; omega
  · rcases x with ⟨⟨k, v⟩, hmem⟩
    have := List.sizeOf_lt_of_mem hmem
    simp at this ⊢
    omega

/-- Python `str()` of a decoded JSON value: the identity on strings,
`repr`-like otherwise. -/
def pyStr (v : JVal) : List Char :=
  match v with
  | .jstr s => s
  | v => pyRepr v

/-- JSON whitespace skipped between tokens. -/
def skipWs (s : List Char) : List Char :=
  s.dropWhile (fun c => c = ' ' || c = '\t' || c = '\n' || c = '\x0d')

/-- Escape map inside JSON string literals (`\uXXXX` escapes are not
modelled: the parser fails on them, keeping it a sub-grammar of
`json.loads` — see `jsonLoads`). -/
def jsonEscChar (c : Char) : Option Char :=
  if c = '"' then some '"'
  else if c = '\\' then some '\\'
  else if c = '/' then some '/'
  else if c = 'n' then some '\n'
  else if c = 't' then some '\t'
  else if c = 'r' then some '\x0d'
  else if c = 'b' then some '\x08'
  else if c = 'f' then some '\x0c'
  else none

/-- Parse the body of a JSON string literal (after the opening quote);
returns the decoded characters and the rest of the input.  Unescaped
control characters are rejected, as `json.loads` rejects them. -/
def parseJString : List Char → Option (List Char × List Char)
  | [] => none
  | c :: rest =>
    if c = '"' then some ([], rest)
    else if c = '\\' then
      match rest with
      | [] => none
      | e :: rest2 =>
        match jsonEscChar e with
        | none => none
        | some ec => (parseJString rest2).map (fun p => (ec :: p.1, p.2))
    else if c.val < 32 then none
    else (parseJString rest).map (fun p => (c :: p.1, p.2))

/-- Digit-run value. -/
def natOfDigits (ds : List Char) : Nat :=
  ds.foldl (fun acc c => acc * 10 + (c.toNat - 48)) 0

/-- Parse a JSON number restricted to integers (a sub-grammar of
`json.loads`: fractions and exponents make the parse fail instead of
producing a float). -/
def parseJNum (s : List Char) : Option (JVal × List Char) :=
  let neg := s.headD ' ' = '-'
  let s1 := if neg then s.drop 1 else s
  let ds := s1.takeWhile Char.isDigit
  let rest := s1.dropWhile Char.isDigit
  if ds.isEmpty then none
  else if 1 < ds.length ∧ ds.headD ' ' = '0' then none
  else
    match rest with
    | '.' :: _ => none
    | 'e' :: _ => none
    | 'E' :: _ => none
    | _ =>
      some (.jnum (if neg then -(natOfDigits ds : Int) else (natOfDigits ds : Int)), rest)

mutual

/-- Recursive-descent JSON value parser (fuel-indexed). -/
def jparseVal : Nat → List Char → Option (JVal × List Char)
  | 0, _ => none
  | Nat.succ fuel, s =>
    match skipWs s with
    | [] => none
    | c :: rest =>
      if c = '"' then
        match parseJString rest with
        | some (cs, r) => some (.jstr cs, r)
        | none => none
      else if c = braceL then
        match skipWs rest with
        | [] => none
        | c2 :: r2 =>
          if c2 = braceR then some (.jobj [], r2)
          else
            match jparseMembers fuel (c2 :: r2) with
            | some (ms, r3) => some (.jobj ms, r3)
            | none => none
      else if c = '[' then
        match skipWs rest with
        | [] => none
        | c2 :: r2 =>
          if c2 = ']' then some (.jarr [], r2)
          else
            match jparseItems fuel (c2 :: r2) with
            | some (vs, r3) => some (.jarr vs, r3)
            | none => none
      else if c = 't' then
        if "rue".data.isPrefixOf rest then some (.jbool true, rest.drop 3) else none
      else if c = 'f' then
        if "alse".data.isPrefixOf rest then some (.jbool false, rest.drop 4) else none
      else if c = 'n' then
        if "ull".data.isPrefixOf rest then some (.jnull, rest.drop 3) else none
      else parseJNum (c :: rest)

/-- Object members: `"key": value` pairs separated by commas, ending at `}`. -/
def jparseMembers : Nat → List Char → Option (List (List Char × JVal) × List Char)
  | 0, _ => none
  | Nat.succ fuel, s =>
    match skipWs s with
    | '"' :: r0 =>
      match parseJString r0 with
      | none => none
      | some (key, r1) =>
        match skipWs r1 with
        | ':' :: r2 =>
          match jparseVal fuel r2 with
          | none => none
          | some (v, r3) =>
            match skipWs r3 with
            | ',' :: r4 => (jparseMembers fuel r4).map (fun p => ((key, v) :: p.1, p.2))
            | c :: r4 => if c = braceR then some ([(key, v)], r4) else none
            | [] => none
        | _ => none
    | _ => none

/-- Array items: values separated by commas, ending at `]`. -/
def jparseItems : Nat → List Char → Option (List JVal × List Char)
  | 0, _ => none
  | Nat.succ fuel, s =>
    match jparseVal fuel s with
    | none => none
    | some (v, r1) =>
      match skipWs r1 with
      | ',' :: r2 => (jparseItems fuel r2).map (fun p => (v :: p.1, p.2))
      | ']' :: r2 => some ([v], r2)
      | _ => none

end

/-- `json.loads` on the extracted payload, as an `Option`: `none` is an
exception.  This parser accepts a sub-grammar of `json.loads` (integer
numerals only, no `\uXXXX` escapes, no `NaN`/`Infinity`); whatever it
accepts, `json.loads` decodes to the same value. -/
def jsonLoads (payload : List Char) : Option JVal :=
  match jparseVal (payload.length + 1) payload with
  | some (v, rest) => if (skipWs rest).isEmpty then some v else none
  | none => none

/-- `app._extract_json_object`: the slice from the first `{` to the last `}`. -/
def extract_json_object (text : List Char) : Option (List Char) :=
  let start? := text.findIdx? (fun c => c = braceL)
  let stop? :=
    match text.reverse.findIdx? (fun c => c = braceR) with
    | some i => some (text.length - 1 - i)
    | none => none
  match start?, stop? with
  | some s, some e => if e ≤ s then none else some ((text.drop s).take (e + 1 - s))
  | _, _ => none

/-- The decode attempt at the top of `_parse_breach_snapshot`
(`parsed` after the `try`/`except`). -/
def jloadsOf (text : List Char) : Option JVal :=
  match extract_json_object text with
  | none => none
  | some payload => jsonLoads payload

/-- `app._normalize_severity`. -/
def normalize_severity (level : List Char) : String :=
  let normalized := lowerStr (pstrip level)
  if normalized = "high".data ∨ normalized = "critical".data ∨ normalized = "severe".data
    then "high"
  else if normalized = "medium".data ∨ normalized = "moderate".data then "medium"
  else "low"

/-- One structured incident record. -/
structure Incident where
  date : List Char
  event : List Char
  impact : List Char
  severity : String
  source_url : List Char
deriving DecidableEq, Repr

/-- `app._breach_grade`: 100 minus per-incident deductions
(`{"high": 28, "medium": 16, "low": 8}` with default 8), clamped at 0,
then the shared grade/risk thresholds. -/
def breach_grade (incidents : List Incident) : String × String :=
  let score : Int :=
    100 - (incidents.map (fun i =>
      if i.severity = "high" then (28 : Int)
      else if i.severity = "medium" then 16
      else if i.severity = "low" then 8 else 8)).sum
  let score := max 0 score
  if 85 ≤ score then ("A", "Low")
  else if 70 ≤ score then ("B", "Low")
  else if 55 ≤ score then ("C", "Medium")
  else if 40 ≤ score then ("D", "High")
  else ("F", "High")

/-- The tuple `_parse_breach_snapshot` returns. -/
structure BreachSnapshot where
  incidents : List Incident
  synopsis : List Char
  sources : List (List Char)
  grade : String
  risk_level : String
deriving DecidableEq, Repr

/-- Python slicing `x[:5]` applied to the decoded `incidents` field: defined
for lists and strings (iterating a string yields one-character strings),
a `TypeError` for every other value. -/
def pySlice5 : JVal → Except String (List JVal)
  | .jarr l => .ok (l.take 5)
  | .jstr s => .ok ((s.take 5).map (fun c => .jstr [c]))
  | _ => .error "TypeError: value is not subscriptable"

/-- `http://`/`https://` acceptance test for `source_url`. -/
def startsWithHttp (u : List Char) : Bool :=
  "http://".data.isPrefixOf u || "https://".data.isPrefixOf u

/-- The per-entry body of the structured loop: skip non-dict entries, keep
entries with a non-empty trimmed event, defaulting the other fields. -/
def incidentOfRaw (raw : JVal) : Option Incident :=
  match raw with
  | .jobj kvs =>
    let event := pstrip (pyStr (pyGetD kvs "event".data (.jstr [])))
    let impact := pstrip (pyStr (pyGetD kvs "impact".data (.jstr [])))
    let date := pstrip (pyStr (pyGetD kvs "date".data (.jstr [])))
    let sourceUrl := pstrip (pyStr (pyGetD kvs "source_url".data (.jstr [])))
    let severity := normalize_severity (pyStr (pyGetD kvs "severity".data (.jstr [])))
    if event.isEmpty then none
    else
      some ⟨if date.isEmpty then "Unknown".data else date,
            event,
            if impact.isEmpty then "Impact not specified.".data else impact,
            severity,
            if startsWithHttp sourceUrl then sourceUrl else []⟩
  | _ => none

/-- The tail of `_parse_breach_snapshot`: collect the sorted set of non-empty
source URLs (a Python `sorted(set(...))` of distinct strings is fully
determined by the code-point order) and the breach grade. -/
def finishSnapshot (incidents : List Incident) (synopsis : List Char) : BreachSnapshot :=
  let sources :=
    List.insertionSort (fun a b => lexLe a b = true)
      (dedupFirst ((incidents.filter (fun i => !i.source_url.isEmpty)).map
        (fun i => i.source_url)))
  let gr := breach_grade incidents
  ⟨incidents, synopsis, sources, gr.1, gr.2⟩

/-- The structured (`isinstance(parsed, dict)`) branch of
`_parse_breach_snapshot`.  The slice `parsed.get("incidents", [])[:5]` can
raise a `TypeError`, which the source does not catch; that outcome is the
`Except.error` case. -/
def structuredResult (kvs : List (List Char × JVal)) : Except String BreachSnapshot :=
  let synopsis := pstrip (pyStr (pyGetD kvs "synopsis".data (.jstr [])))
  match pySlice5 (pyGetD kvs "incidents".data (.jarr [])) with
  | .error e => .error e
  | .ok raws => .ok (finishSnapshot (raws.filterMap incidentOfRaw) synopsis)

/-- Line-break characters recognised by Python `str.splitlines`. -/
def isLineBreak (c : Char) : Bool :=
  c = '\n' || c = '\x0d' || c = '\x0b' || c = '\x0c' || c = '\x1c' || c = '\x1d' ||
  c = '\x1e' || c = '\x85' || c = Char.ofNat 8232 || c = Char.ofNat 8233

/-- Python `str.splitlines` (accumulator holds the current line reversed). -/
def splitlinesAux : List Char → List Char → List (List Char)
  | [], acc => if acc.isEmpty then [] else [acc.reverse]
  | c :: rest, acc =>
    if c = '\x0d' then
      if rest.headD 'x' = '\n' then acc.reverse :: splitlinesAux (rest.drop 1) []
      else acc.reverse :: splitlinesAux rest []
    else if isLineBreak c then acc.reverse :: splitlinesAux rest []
    else splitlinesAux rest (c :: acc)
termination_by s _ => s.length
decreasing_by all_goals (simp; try omega)

/-- Python `str.splitlines`. -/
def splitlinesPy (s : List Char) : List (List Char) :=
  splitlinesAux s []

/-- `re.sub(r"^[-*•\s]+", "", line)`: drop the leading run of bullets and
whitespace. -/
def dropBullets (line : List Char) : List Char :=
  line.dropWhile (fun c => c = '-' || c = '*' || c = '•' || isPySpace c)

/-- `line.split(":", 1)[1].strip()` guarded by `":" in line`. -/
def afterFirstColonStrip (line : List Char) : List Char :=
  if line.contains ':' then pstrip ((line.dropWhile (fun c => !(c == ':'))).drop 1)
  else []

/-- The incident built for one surviving fallback line. -/
def fallbackIncident (cleaned : List Char) : Incident :=
  ⟨"Unknown".data, cleaned, "Details not structured by model output.".data, "medium", []⟩

/-- The line loop of the fallback branch: skip fences, capture (and
overwrite) the synopsis line, strip bullets, skip empty lines and bare
braces, and stop right after the fifth appended incident (the `break`). -/
def fallbackLoop : List (List Char) → List Char → List Incident → List Char × List Incident
  | [], syn, inc => (syn, inc)
  | line :: rest, syn, inc =>
    if "```".data.isPrefixOf line then fallbackLoop rest syn inc
    else if "synopsis:".data.isPrefixOf (lowerStr line) then
      fallbackLoop rest (afterFirstColonStrip line) inc
    else
      let cleaned := pstrip (dropBullets line)
      if cleaned.isEmpty || cleaned = [braceL] || cleaned = [braceR] then
        fallbackLoop rest syn inc
      else
        let inc2 := inc ++ [fallbackIncident cleaned]
        if 5 ≤ inc2.length then (syn, inc2) else fallbackLoop rest syn inc2

/-- The fallback (non-dict) branch of `_parse_breach_snapshot`. -/
def fallbackResult (text : List Char) : BreachSnapshot :=
  let lines := ((splitlinesPy text).map pstrip).filter (fun l => !l.isEmpty)
  let r := fallbackLoop lines [] []
  let synopsis :=
    if r.1.isEmpty then "Model returned unstructured output; review manually.".data else r.1
  finishSnapshot r.2 synopsis

/-- `app._parse_breach_snapshot`: decode between the outermost braces, take
the structured branch when the decoded value is a dict, else the line-based
fallback. -/
def parse_breach_snapshot (text : List Char) : Except String BreachSnapshot :=
  match jloadsOf text with
  | some (.jobj kvs) => structuredResult kvs
  | _ => .ok (fallbackResult text)

/-- Characters escaped by `re.escape` in Python 3.7+ (the set
`()[]{}?*+-|^$\.&~#` together with whitespace); the space character is
treated separately by `_pattern_for_term`. -/
def isSpecialRe (c : Char) : Bool :=
  c = '(' || c = ')' || c = '[' || c = ']' || c = braceL || c = braceR || c = '?' ||
  c = '*' || c = '+' || c = '-' || c = '|' || c = '^' || c = '$' || c = '\\' ||
  c = '.' || c = '&' || c = '~' || c = '#' || c = '\t' || c = '\n' || c = '\x0d' ||
  c = '\x0b' || c = '\x0c'

/-- `re.fullmatch(r"[A-Za-z\-]+", term)`: purely alphabetic-with-hyphens. -/
def isAlphaHyphen (t : List Char) : Bool :=
  !t.isEmpty && t.all (fun c => c.isAlpha || c = '-')

/-- One atom of the compiled pattern a term denotes after
`_pattern_for_term`: a case-insensitive literal character, `\s+`, or a `\b`
assertion.  `re.escape` turns every character into a literal except the
space, which the source rewrites to `\s+`.  (The source also rewrites `\,`
to `\s*,\s*`, but `re.escape` has not escaped commas since Python 3.7, so
that substitution never fires and commas stay literal.) -/
inductive RItem where
  | lit : Char → RItem
  | ws1 : RItem
  | wordB : RItem
deriving DecidableEq, Repr

/-- The item sequence denoted by `_pattern_for_term(term)`. -/
def patternItems (term : List Char) : List RItem :=
  let core := term.map (fun c => if c = ' ' then RItem.ws1 else RItem.lit c)
  if isAlphaHyphen term then [RItem.wordB] ++ core ++ [RItem.wordB] else core

/-- The length of the pattern string `_pattern_for_term(term)` — the sort
key of the longest-pattern-first ordering: each space costs 3 (`\s+`), each
`re.escape`-special character 2, every other character 1, plus 4 for the
two `\b` anchors. -/
def patternStrLen (term : List Char) : Nat :=
  (if isAlphaHyphen term then 4 else 0) +
  (term.map (fun c => if c = ' ' then 3 else if isSpecialRe c then 2 else 1)).sum

/-- Word character for `\b` (ASCII range of `\w`). -/
def isWordChar (c : Char) : Bool :=
  c.isAlpha || c.isDigit || c = '_'

/-- Whether position `i` of `text` holds a word character. -/
def isWordAt (text : List Char) (i : Nat) : Bool :=
  match text[i]? with
  | some c => isWordChar c
  | none => false

/-- The `\b` assertion at position `i`. -/
def isBoundary (text : List Char) (i : Nat) : Bool :=
  (if i = 0 then false else isWordAt text (i - 1)) != isWordAt text i

/-- Number of consecutive `\s` characters of `text` starting at `pos`. -/
def countWs (text : List Char) (pos : Nat) : Nat :=
  ((text.drop pos).takeWhile isPySpace).length

/-- Backtracking matcher for one compiled term pattern at a fixed position:
returns the end of the match.  `\s+` is greedy (longest run first), exactly
as the `re` engine treats it. -/
def matchItems : List RItem → List Char → Nat → Option Nat
  | [], _, pos => some pos
  | RItem.wordB :: rest, text, pos =>
    if isBoundary text pos then matchItems rest text pos else none
  | RItem.lit c :: rest, text, pos =>
    match text[pos]? with
    | some tc => if tc.toLower = c.toLower then matchItems rest text (pos + 1) else none
    | none => none
  | RItem.ws1 :: rest, text, pos =>
    let n := countWs text pos
    if n = 0 then none
    else (List.range n).reverse.findSome? (fun j => matchItems rest text (pos + j + 1))

/-- The combined alternation: alternatives are tried left to right, the
first that matches at the position wins, as the `re` engine does. -/
def matchAlt (pats : List (List RItem)) (text : List Char) (pos : Nat) : Option Nat :=
  pats.findSome? (fun items => matchItems items text pos)

/-- The left-to-right non-overlapping scan of `finditer`: at each position
try the combined pattern; a non-empty match continues at its end, an empty
match is recorded and the scan continues one character further. -/
def scanFrom (pats : List (List RItem)) (text : List Char) :
    Nat → Nat → List (Nat × Nat)
  | 0, _ => []
  | Nat.succ fuel, pos =>
    if text.length < pos then []
    else
      match matchAlt pats text pos with
      | none => if text.length ≤ pos then [] else scanFrom pats text fuel (pos + 1)
      | some e =>
        if e = pos then
          (pos, pos) :: (if text.length ≤ pos then [] else scanFrom pats text fuel (pos + 1))
        else (pos, e) :: scanFrom pats text fuel e

/-- `markupsafe.escape` of one character. -/
def escChars (c : Char) : List Char :=
  if c = '&' then "&amp;".data
  else if c = '<' then "&lt;".data
  else if c = '>' then "&gt;".data
  else if c = '"' then "&#34;".data
  else if c = squote then "&#39;".data
  else [c]

/-- `markupsafe.escape`. -/
def escapeHtml : List Char → List Char
  | [] => []
  | c :: rest => escChars c ++ escapeHtml rest

/-- The opening mark tag emitted around a match. -/
def markOpen : List Char := "<mark class=\x27danger-mark\x27>".data

/-- The closing mark tag. -/
def markClose : List Char := "</mark>".data

/-- The opening tag of the preformatted wrapper. -/
def preOpen : List Char := "<pre class=\x27policy-text\x27>".data

/-- The closing tag of the preformatted wrapper. -/
def preClose : List Char := "</pre>".data

/-- Python slice `text[a:b]`. -/
def pySlice (text : List Char) (a b : Nat) : List Char :=
  (text.drop a).take (b - a)

/-- The set of distinct terms whose flaw severity is high or medium, in one
admissible set order (see `dedupFirst`). -/
def dangerousTerms (flaws : List Flaw) : List (List Char) :=
  dedupFirst (flaws.filterMap (fun f =>
    if f.severity = "high" ∨ f.severity = "medium" then some f.term else none))

/-- `sorted(patterns, key=len, reverse=True)` followed by compilation:
stable sort of the terms by their pattern-string length, longest first. -/
def sortedPatterns (terms : List (List Char)) : List (List RItem) :=
  (List.insertionSort (fun a b => patternStrLen b ≤ patternStrLen a) terms).map
    patternItems

/-- All match spans the highlighter marks in `text`. -/
def highlightSpans (text : List Char) (flaws : List Flaw) : List (Nat × Nat) :=
  scanFrom (sortedPatterns (dangerousTerms flaws)) text (text.length + 1) 0

/-- The `parts` list built by the cursor loop of `_highlight_dangers`. -/
def renderLoop (text : List Char) : List (Nat × Nat) → Nat → List (List Char)
  | [], cursor =>
    if cursor < text.length then [escapeHtml (pySlice text cursor text.length)] else []
  | (s, e) :: rest, cursor =>
    (if cursor < s then [escapeHtml (pySlice text cursor s)] else []) ++
    [markOpen ++ escapeHtml (pySlice text s e) ++ markClose] ++
    renderLoop text rest e

/-- `app._highlight_dangers`. -/
def highlight_dangers (text : List Char) (flaws : List Flaw) : List Char :=
  if (dangerousTerms flaws).isEmpty then preOpen ++ escapeHtml text ++ preClose
  else preOpen ++ (renderLoop text (highlightSpans text flaws) 0).flatten ++ preClose

/-- Drop one markup tag: everything up to and including the next `>`. -/
def dropTag (s : List Char) : List Char :=
  (s.dropWhile (fun c => !(c == '>'))).drop 1

/-- Remove every markup tag from a rendered string.  Escaped text contains
neither `<` nor `>`, so inside the highlighter's output every `<` opens one
of the four emitted tags and every tag ends at the next `>`. -/
def stripTags : List Char → List Char
  | [] => []
  | c :: rest => if c = '<' then stripTags (dropTag rest) else c :: stripTags rest
termination_by s => s.length
decreasing_by
  all_goals simp [dropTag]
  · have h1 : (rest.dropWhile (fun c => !(c == '>'))).length ≤ rest.length :=
      (List.dropWhile_sublist (fun c => !(c == '>'))).length_le
    omega

/-- Invert `markupsafe.escape` on escaped text: decode the five entities it
emits, pass everything else through. -/
def unescapeHtml : List Char → List Char
  | [] => []
  | c :: rest =>
    if c = '&' then
      match rest with
      | 'a' :: 'm' :: 'p' :: ';' :: r => '&' :: unescapeHtml r
      | 'l' :: 't' :: ';' :: r => '<' :: unescapeHtml r
      | 'g' :: 't' :: ';' :: r => '>' :: unescapeHtml r
      | '#' :: '3' :: '4' :: ';' :: r => '"' :: unescapeHtml r
      | '#' :: '3' :: '9' :: ';' :: r => squote :: unescapeHtml r
      | other => c :: unescapeHtml other
    else c :: unescapeHtml rest
termination_by s => s.length
decreasing_by all_goals (simp_all; try omega)

/-- De-marking then unescaping: the reading of "removing the marks and
unescaping" in the round-trip property. -/
def demarkUnescape (s : List Char) : List Char :=
  unescapeHtml (stripTags s)

/-- Well-formedness of a span list produced by the scan: spans sit between
the cursor and the end of the text, ordered and non-overlapping. -/
inductive SpansOK (len : Nat) : Nat → List (Nat × Nat) → Prop where
  | nil : ∀ c, SpansOK len c []
  | cons : ∀ c s e rest, c ≤ s → s ≤ e → e ≤ len → SpansOK len e rest →
      SpansOK len c ((s, e) :: rest)

/-! ### Helper lemmas -/

theorem lexLe_refl : ∀ a : List Char, lexLe a a = true
  | [] => rfl
  | c :: t => by simp [lexLe]; exact lexLe_refl t

theorem lexLe_total : ∀ a b : List Char, lexLe a b = true ∨ lexLe b a = true
  | [], _ => Or.inl rfl
  | _ :: _, [] => Or.inr rfl
  | x :: s, y :: t => by
    by_cases hxy : x = y
    · subst hxy
      rcases lexLe_total s t with h | h
      · left; simpa [lexLe] using h
      · right; simpa [lexLe] using h
    · have hyx : ¬ y = x := fun e => hxy e.symm
      rcases lt_trichotomy x y with h | h | h
      · left; simp [lexLe, hxy, h]
      · exact absurd h hxy
      · right; simp [lexLe, hyx, h]

theorem lexLe_trans :
    ∀ a b c : List Char, lexLe a b = true → lexLe b c = true → lexLe a c = true
  | [], _, _, _, _ => rfl
  | _ :: _, [], _, hab, _ => by simp [lexLe] at hab
  | _ :: _, _ :: _, [], _, hbc => by simp [lexLe] at hbc
  | x :: s, y :: t, z :: u, hab, hbc => by
    by_cases hxy : x = y <;> by_cases hyz : y = z
    · subst hxy; subst hyz
      simp [lexLe] at hab hbc ⊢
      exact lexLe_trans _ _ _ hab hbc
    · subst hxy
      simp [lexLe, hyz] at hbc ⊢
      exact hbc
    · subst hyz
      simp [lexLe, hxy] at hab ⊢
      exact hab
    · simp [lexLe, hxy] at hab
      simp [lexLe, hyz] at hbc
      have hxz := lt_trans hab hbc
      simp [lexLe, ne_of_lt hxz, hxz]

theorem dedupFirstAux_sound {α : Type} [DecidableEq α] :
    ∀ (l seen : List α), (dedupFirstAux seen l).Nodup ∧
      ∀ x ∈ dedupFirstAux seen l, x ∉ seen
  | [], _ => ⟨List.nodup_nil, by simp [dedupFirstAux]⟩
  | x :: rest, seen => by
    by_cases hx : x ∈ seen
    · simpa [dedupFirstAux, hx] using dedupFirstAux_sound rest seen
    · have ih := dedupFirstAux_sound rest (x :: seen)
      refine ⟨?_, ?_⟩
      · rw [dedupFirstAux, if_neg hx]
        refine List.nodup_cons.2 ⟨?_, ih.1⟩
        intro hmem
        have := ih.2 x hmem
        simp at this
      · intro y hy
        rw [dedupFirstAux, if_neg hx] at hy
        rcases List.mem_cons.1 hy with rfl | hy2
        · exact hx
        · intro hseen
          exact ih.2 y hy2 (List.mem_cons.2 (Or.inr hseen))

theorem dedupFirst_nodup {α : Type} [DecidableEq α] (l : List α) :
    (dedupFirst l).Nodup :=
  (dedupFirstAux_sound l []).1

instance lowerLeTrans : IsTrans (List Char) (fun a b => lowerLe a b = true) :=
  ⟨fun _ _ _ hab hbc => lexLe_trans _ _ _ hab hbc⟩

instance lowerLeTotal : IsTotal (List Char) (fun a b => lowerLe a b = true) :=
  ⟨fun a b => lexLe_total (lowerStr a) (lowerStr b)⟩

/-! ### Claims about the cookie classifier and grader -/

/-- C2 (amended): `parse_observed_cookies` splits on newlines/commas/semicolons,
strips, drops everything after the first `=`, discards empty tokens,
de-duplicates exactly (case-sensitively — names differing only in case are all
kept), and returns the names sorted case-insensitively by their lower-cased
form; empty input yields the empty sequence. -/
theorem C2_parse_observed_cookies (raw : List Char) :
    List.Pairwise (fun a b => lexLe (lowerStr a) (lowerStr b) = true)
      (parse_observed_cookies raw) ∧
    (parse_observed_cookies raw).Nodup ∧
    (parse_observed_cookies raw).Perm (dedupFirst (cookieNames raw)) ∧
    parse_observed_cookies [] = [] := by
  by_cases h : raw.isEmpty
  · have hraw : raw = [] := List.isEmpty_iff.1 h
    subst hraw
    exact ⟨by simp [parse_observed_cookies], by simp [parse_observed_cookies],
      by rw [(by rfl : dedupFirst (cookieNames []) = [])]; simp [parse_observed_cookies],
      rfl⟩
  · have hperm :
        (parse_observed_cookies raw).Perm (dedupFirst (cookieNames raw)) := by
      simpa [parse_observed_cookies, h] using
        List.perm_insertionSort (fun a b => lowerLe a b = true)
          (dedupFirst (cookieNames raw))
    refine ⟨?_, hperm.nodup_iff.2 (dedupFirst_nodup _), hperm, rfl⟩
    have hs :=
      List.sorted_insertionSort (fun a b => lowerLe a b = true)
        (dedupFirst (cookieNames raw))
    rw [parse_observed_cookies, if_neg h]
    exact hs

/-- C2 counterexample: the claim's "de-duplicates case-insensitively (no two
returned names are equal ignoring case)" fails — `set(names)` de-duplicates
exactly, so `"A\na"` returns both `A` and `a`, which agree ignoring case. -/
theorem C2_counterexample :
    parse_observed_cookies "A\na".data = ["A".data, "a".data] ∧
    lowerStr "A".data = lowerStr "a".data ∧ "A".data ≠ "a".data :=
  ⟨by rfl, by rfl, by decide⟩

/-- C3 (amended): on empty policy text and empty cookie text the grader does
apply one deduction — the 8-point missing opt-out-language rule — so the
score is 92 (not 100) and the issues list holds exactly that one issue. -/
theorem C3_empty_inputs_score :
    (grade_cookie_truthfulness [] [] "before_consent").score = 92 ∧
    (grade_cookie_truthfulness [] [] "before_consent").issues = [optOutIssue] :=
  ⟨by rfl, by rfl⟩

/-- C3 counterexample: the claimed "score is 100 and the issues list is
empty" is false on empty inputs. -/
theorem C3_counterexample :
    ¬((grade_cookie_truthfulness [] [] "before_consent").score = 100 ∧
      (grade_cookie_truthfulness [] [] "before_consent").issues = []) := by
  decide

/-- C4: on empty policy and cookie text the grader returns score 92 (only the
8-point opt-out deduction), grade A, risk Low, and exactly one medium issue. -/
theorem C4_empty_inputs :
    grade_cookie_truthfulness [] [] "before_consent" =
      ⟨92, "A", "Low", [optOutIssue], [], ⟨0, 0, 0, 0, 0⟩, "before_consent"⟩ ∧
    optOutIssue.severity = "medium" :=
  ⟨by rfl, rfl⟩

/-- C8: `classify_cookie` lower-cases the name and returns the first category
in the fixed order (analytics, advertising, session, functional) having a
matching pattern, and `"unknown"` when none matches; in particular a name
matching two categories resolves to the earlier one. -/
theorem C8_classify_cookie (name : List Char) :
    (categoryMatches analyticsPatterns (lowerStr name) = true →
      classify_cookie name = "analytics") ∧
    (categoryMatches analyticsPatterns (lowerStr name) = false →
      categoryMatches advertisingPatterns (lowerStr name) = true →
      classify_cookie name = "advertising") ∧
    (categoryMatches analyticsPatterns (lowerStr name) = false →
      categoryMatches advertisingPatterns (lowerStr name) = false →
      categoryMatches sessionPatterns (lowerStr name) = true →
      classify_cookie name = "session") ∧
    (categoryMatches analyticsPatterns (lowerStr name) = false →
      categoryMatches advertisingPatterns (lowerStr name) = false →
      categoryMatches sessionPatterns (lowerStr name) = false →
      categoryMatches functionalPatterns (lowerStr name) = true →
      classify_cookie name = "functional") ∧
    (categoryMatches analyticsPatterns (lowerStr name) = false →
      categoryMatches advertisingPatterns (lowerStr name) = false →
      categoryMatches sessionPatterns (lowerStr name) = false →
      categoryMatches functionalPatterns (lowerStr name) = false →
      classify_cookie name = "unknown") := by
  refine ⟨fun h1 => ?_, fun h1 h2 => ?_, fun h1 h2 h3 => ?_,
    fun h1 h2 h3 h4 => ?_, fun h1 h2 h3 h4 => ?_⟩ <;>
    simp [classify_cookie, TRACKER_PATTERNS, List.find?, *]

/-- C8 witness: concrete classifications through the theorem. -/
theorem C8_classify_cookie_witness :
    classify_cookie "_ga".data = "analytics" ∧
    classify_cookie "session_id".data = "session" ∧
    classify_cookie "adview".data = "advertising" ∧
    classify_cookie "xyz123".data = "unknown" :=
  ⟨(C8_classify_cookie "_ga".data).1 (by decide),
   (C8_classify_cookie "session_id".data).2.2.1 (by decide) (by decide) (by decide),
   (C8_classify_cookie "adview".data).2.1 (by decide) (by decide),
   (C8_classify_cookie "xyz123".data).2.2.2.2 (by decide) (by decide) (by decide)
     (by decide)⟩

/-- C9: grade aggregation maps letters to points (A=4 … F=0), averages the
present components without weights, maps back through the 3.5/2.5/1.5/0.5
thresholds, and derives risk (A/B Low, C Medium, D/F High); `[B, D]` yields
grade C with risk Medium and the empty list yields no grade. -/
theorem C9_aggregate_grades :
    (grade_to_points "A" = 4 ∧ grade_to_points "B" = 3 ∧ grade_to_points "C" = 2 ∧
      grade_to_points "D" = 1 ∧ grade_to_points "F" = 0) ∧
    (∀ p : ℚ,
      (3.5 ≤ p → points_to_grade p = "A") ∧
      (2.5 ≤ p → p < 3.5 → points_to_grade p = "B") ∧
      (1.5 ≤ p → p < 2.5 → points_to_grade p = "C") ∧
      (0.5 ≤ p → p < 1.5 → points_to_grade p = "D") ∧
      (p < 0.5 → points_to_grade p = "F")) ∧
    (grade_to_risk "A" = "Low" ∧ grade_to_risk "B" = "Low" ∧
      grade_to_risk "C" = "Medium" ∧ grade_to_risk "D" = "High" ∧
      grade_to_risk "F" = "High") ∧
    aggregate_grades [⟨"Policy", "B"⟩, ⟨"Cookie", "D"⟩] = some ("C", "Medium") ∧
    aggregate_grades ([] : List GradeComponent) = none ∧
    (∀ comps : List GradeComponent, comps ≠ [] →
      aggregate_grades comps =
        some (points_to_grade
                (((comps.map (fun c => grade_to_points c.grade)).sum) / (comps.length : ℚ)),
              grade_to_risk (points_to_grade
                (((comps.map (fun c => grade_to_points c.grade)).sum) / (comps.length : ℚ))))) := by
  refine ⟨⟨by rfl, by rfl, by rfl, by rfl, by rfl⟩, ?_, ⟨by rfl, by rfl, by rfl, by rfl, by rfl⟩,
    ?_, by rfl, ?_⟩
  · intro p
    refine ⟨fun h1 => ?_, fun h1 h2 => ?_, fun h1 h2 => ?_, fun h1 h2 => ?_, fun h1 => ?_⟩ <;>
      · rw [points_to_grade]
        split_ifs <;> first | rfl | linarith
  · have hB : grade_to_points "B" = 3 := by rfl
    have hD : grade_to_points "D" = 1 := by rfl
    rw [aggregate_grades]
    simp [hB, hD]
    norm_num [points_to_grade, grade_to_risk, upperStrip]
    decide
  · intro comps hne
    rw [aggregate_grades, if_neg (by simpa using hne)]

/-- C9 witness: concrete threshold instances through the theorem. -/
theorem C9_aggregate_grades_witness :
    points_to_grade 4 = "A" ∧ points_to_grade 2 = "C" ∧ points_to_grade 0 = "F" ∧
    aggregate_grades [⟨"Breach", "A"⟩] =
      some (points_to_grade ((grade_to_points "A") / (1 : ℚ)),
            grade_to_risk (points_to_grade ((grade_to_points "A") / (1 : ℚ)))) :=
  ⟨(C9_aggregate_grades.2.1 4).1 (by norm_num),
   (C9_aggregate_grades.2.1 2).2.2.1 (by norm_num) (by norm_num),
   (C9_aggregate_grades.2.1 0).2.2.2.2 (by norm_num),
   by
    have h := C9_aggregate_grades.2.2.2.2.2 [⟨"Breach", "A"⟩] (by decide)
    simpa using h⟩

/-! ### Claims about the breach-snapshot parser -/

/-- C1: the claim says `_parse_breach_snapshot` never raises, but when the
extracted JSON object's `incidents` field is not a list (here the number 5),
`parsed.get("incidents", [])[:5]` raises an uncaught `TypeError` — the code
contradicts the resilience contract at this input. -/
theorem C1_breach_parser_raises_on_nonlist_incidents :
    parse_breach_snapshot "\x7b\"incidents\": 5\x7d".data =
      Except.error "TypeError: value is not subscriptable" := by rfl

/-- C5 (amended): with consent `before_consent`, cookies classifying as
2 analytics + 1 advertising, and no analytics/advertising disclosure in the
policy, the grader deducts min(45, 36), 20 and 25 in rule order — and, when
the policy also lacks opt-out/do-not-sell language, a further 8 — so the
score is 19 when opt-out language is present and 11 otherwise; in both cases
grade F, risk High, and the first three issues are the high-severity
consent, analytics-disclosure and advertising-disclosure issues in rule
order. -/
theorem C5_before_consent_grading (policy ck : List Char)
    (hc : countsOf ((parse_observed_cookies ck).map
            (fun n => CookieRec.mk n (classify_cookie n))) = ⟨2, 1, 0, 0, 0⟩)
    (ha : disclosed policy "analytics" = false)
    (hd : disclosed policy "advertising" = false) :
    (grade_cookie_truthfulness policy ck "before_consent").score =
      (if optOutMissing policy then 11 else 19) ∧
    (grade_cookie_truthfulness policy ck "before_consent").grade = "F" ∧
    (grade_cookie_truthfulness policy ck "before_consent").risk_level = "High" ∧
    (grade_cookie_truthfulness policy ck "before_consent").issues.take 3 =
      [consentIssue, analyticsIssue, advertisingIssue] := by
  cases hop : optOutMissing policy <;>
    simp [grade_cookie_truthfulness, hc, ha, hd, hop, sortIssues, sevRank,
      consentIssue, analyticsIssue, advertisingIssue, optOutIssue]

/-- C5 counterexample: at empty policy text (which has no disclosure phrases)
the premises of the claim hold but the score is 11, not the claimed 19,
because the 8-point opt-out deduction also fires. -/
theorem C5_counterexample :
    countsOf ((parse_observed_cookies "_ga\n_gid\n_fbp".data).map
      (fun n => CookieRec.mk n (classify_cookie n))) = ⟨2, 1, 0, 0, 0⟩ ∧
    disclosed [] "analytics" = false ∧ disclosed [] "advertising" = false ∧
    (grade_cookie_truthfulness [] "_ga\n_gid\n_fbp".data "before_consent").score = 11 := by
  refine ⟨by decide, by decide, by decide, by decide⟩

/-- C5 witness: with opt-out language present the amended claim gives 19/F/High. -/
theorem C5_witness :
    (grade_cookie_truthfulness "opt-out".data "_ga\n_gid\n_fbp".data
      "before_consent").score = 19 ∧
    (grade_cookie_truthfulness "opt-out".data "_ga\n_gid\n_fbp".data
      "before_consent").grade = "F" := by
  have h := C5_before_consent_grading "opt-out".data "_ga\n_gid\n_fbp".data
    (by decide) (by decide) (by decide)
  have hop : optOutMissing "opt-out".data = false := by decide
  refine ⟨?_, h.2.1⟩
  have h1 := h.1
  rw [hop] at h1
  simpa using h1

theorem head_of_isPrefixOf {a : Char} {as l : List Char}
    (h : (a :: as).isPrefixOf l = true) : ∃ t, l = a :: t := by
  cases l with
  | nil => simp [List.isPrefixOf] at h
  | cons b t =>
    simp [List.isPrefixOf] at h
    exact ⟨t, by rw [h.1]⟩

theorem flawLeB_eq_true_iff (a b : Flaw) : flawLeB a b = true ↔
    (sevRank a.severity < sevRank b.severity ∨
      (sevRank a.severity = sevRank b.severity ∧
        (b.count < a.count ∨
          (a.count = b.count ∧ lexLe (lowerStr a.term) (lowerStr b.term) = true)))) := by
  rw [flawLeB]
  by_cases h1 : sevRank a.severity = sevRank b.severity
  · rw [if_neg (by omega)]
    by_cases h2 : a.count = b.count
    · rw [if_neg (by omega)]
      constructor
      · intro h; exact Or.inr ⟨h1, Or.inr ⟨h2, h⟩⟩
      · rintro (h | ⟨-, h | ⟨-, h⟩⟩)
        · exact absurd h (by omega)
        · exact absurd h (by omega)
        · exact h
    · rw [if_pos h2]
      constructor
      · intro h; exact Or.inr ⟨h1, Or.inl (of_decide_eq_true h)⟩
      · rintro (h | ⟨-, h | ⟨h, -⟩⟩)
        · exact absurd h (by omega)
        · exact decide_eq_true h
        · exact absurd h h2
  · rw [if_pos h1]
    constructor
    · intro h; exact Or.inl (of_decide_eq_true h)
    · rintro (h | ⟨h, -⟩)
      · exact decide_eq_true h
      · exact absurd h h1

instance flawLeBTrans : IsTrans Flaw (fun a b => flawLeB a b = true) := by
  constructor
  intro a b c hab hbc
  rw [flawLeB_eq_true_iff] at hab hbc ⊢
  rcases hab with h1 | ⟨h1, h2⟩
  · rcases hbc with h3 | ⟨h3, -⟩
    · exact Or.inl (lt_trans h1 h3)
    · exact Or.inl (by omega)
  · rcases hbc with h3 | ⟨h3, h4⟩
    · exact Or.inl (by omega)
    · refine Or.inr ⟨by omega, ?_⟩
      rcases h2 with h2 | ⟨h2, h5⟩
      · rcases h4 with h4 | ⟨h4, -⟩
        · exact Or.inl (lt_trans h4 h2)
        · exact Or.inl (by omega)
      · rcases h4 with h4 | ⟨h4, h6⟩
        · exact Or.inl (by omega)
        · exact Or.inr ⟨by omega, lexLe_trans _ _ _ h5 h6⟩

instance flawLeBTotal : IsTotal Flaw (fun a b => flawLeB a b = true) := by
  constructor
  intro a b
  rw [flawLeB_eq_true_iff, flawLeB_eq_true_iff]
  rcases Nat.lt_trichotomy (sevRank a.severity) (sevRank b.severity) with h | h | h
  · exact Or.inl (Or.inl h)
  · rcases Int.lt_trichotomy a.count b.count with h2 | h2 | h2
    · exact Or.inr (Or.inr ⟨h.symm, Or.inl h2⟩)
    · rcases lexLe_total (lowerStr a.term) (lowerStr b.term) with h3 | h3
      · exact Or.inl (Or.inr ⟨h, Or.inr ⟨h2, h3⟩⟩)
      · exact Or.inr (Or.inr ⟨h.symm, Or.inr ⟨h2.symm, h3⟩⟩)
    · exact Or.inl (Or.inr ⟨h, Or.inl h2⟩)
  · exact Or.inr (Or.inl h)

/-- C6: each hit's severity is a pure function of (category prefix, subgroup):
`5.` and `2.` are high, `1.` with subgroup `High-Risk Identifiers` is high,
`4.` with subgroup `Timelines` is low, everything else is medium; and every
extracted flaw list is sorted by (severity rank ascending, count descending,
term ascending case-insensitively). -/
theorem C6_extract_flaws :
    (∀ cn sn : List Char,
      ("5.".data.isPrefixOf cn = true → severityFor cn sn = "high") ∧
      ("2.".data.isPrefixOf cn = true → severityFor cn sn = "high") ∧
      ("1.".data.isPrefixOf cn = true → sn = "High-Risk Identifiers".data →
        severityFor cn sn = "high") ∧
      ("4.".data.isPrefixOf cn = true → sn = "Timelines".data →
        severityFor cn sn = "low") ∧
      ("5.".data.isPrefixOf cn = false → "2.".data.isPrefixOf cn = false →
        ¬("1.".data.isPrefixOf cn = true ∧ sn = "High-Risk Identifiers".data) →
        ¬("4.".data.isPrefixOf cn = true ∧ sn = "Timelines".data) →
        severityFor cn sn = "medium")) ∧
    (∀ r : Report,
      List.Pairwise (fun a b =>
        sevRank a.severity < sevRank b.severity ∨
        (sevRank a.severity = sevRank b.severity ∧
          (b.count < a.count ∨
            (a.count = b.count ∧
              lexLe (lowerStr a.term) (lowerStr b.term) = true))))
        (extract_flaws r)) := by
  constructor
  · intro cn sn
    refine ⟨fun h5 => by simp [severityFor, h5], fun h2 => ?_, fun h1 hsn => ?_,
      fun h4 hsn => ?_, fun h5 h2 h1 h4 => ?_⟩
    · obtain ⟨t, rfl⟩ := head_of_isPrefixOf h2
      simp [severityFor, List.isPrefixOf] at h2 ⊢
      simp [h2]
    · obtain ⟨t, rfl⟩ := head_of_isPrefixOf h1
      simp [severityFor, List.isPrefixOf] at h1 ⊢
      simp [h1, hsn]
    · obtain ⟨t, rfl⟩ := head_of_isPrefixOf h4
      simp [severityFor, List.isPrefixOf] at h4 ⊢
      simp [h4, hsn]
    · rw [severityFor, if_neg (by simp [h5]), if_neg (by simp [h2]),
        if_neg (by simpa using h1), if_neg (by simpa using h4)]
  · intro r
    have hs := List.sorted_insertionSort (fun a b => flawLeB a b = true)
      (r.categories.flatMap (fun cd => cd.2.flatMap (fun sg => sg.2.map (mkFlaw cd.1 sg.1))))
    rw [extract_flaws]
    exact List.Pairwise.imp (fun h => (flawLeB_eq_true_iff _ _).1 h) hs

/-- C6 witness: concrete severities and a concrete sorted extraction through
the theorem. -/
theorem C6_extract_flaws_witness :
    severityFor "5.Weasel".data "X".data = "high" ∧
    severityFor "2.Sharing".data "X".data = "high" ∧
    severityFor "1.Tracking".data "High-Risk Identifiers".data = "high" ∧
    severityFor "4.Security".data "Timelines".data = "low" ∧
    severityFor "3.Rights".data "X".data = "medium" ∧
    List.Pairwise (fun a b =>
        sevRank a.severity < sevRank b.severity ∨
        (sevRank a.severity = sevRank b.severity ∧
          (b.count < a.count ∨
            (a.count = b.count ∧
              lexLe (lowerStr a.term) (lowerStr b.term) = true))))
      (extract_flaws ⟨[("5.Weasel".data, [("X".data, [⟨"guarantee".data, 3⟩])]),
        ("1.Tracking".data, [("High-Risk Identifiers".data, [⟨"ssn".data, 1⟩])])]⟩) :=
  ⟨(C6_extract_flaws.1 "5.Weasel".data "X".data).1 (by decide),
   (C6_extract_flaws.1 "2.Sharing".data "X".data).2.1 (by decide),
   (C6_extract_flaws.1 "1.Tracking".data "High-Risk Identifiers".data).2.2.1
     (by decide) (by decide),
   (C6_extract_flaws.1 "4.Security".data "Timelines".data).2.2.2.1
     (by decide) (by decide),
   (C6_extract_flaws.1 "3.Rights".data "X".data).2.2.2.2 (by decide) (by decide)
     (by decide) (by decide),
   C6_extract_flaws.2 _⟩

/-! ### Claim about the structured branch of the breach parser -/

/-- C10: whenever the slice between the outermost braces decodes to a JSON
object, the parser stays on the structured branch; and when the object's
`incidents` field is absent or a list contributing no record-shaped entry
with a non-empty event, the result is zero incidents, no sources, grade A,
risk Low, with the synopsis exactly the trimmed `synopsis` field — the
default manual-review synopsis only ever comes from the fallback branch. -/
theorem C10_structured_branch (text : List Char) (kvs : List (List Char × JVal))
    (h : jloadsOf text = some (.jobj kvs)) :
    parse_breach_snapshot text = structuredResult kvs ∧
    ((pyGet kvs "incidents".data = none ∨
      ∃ l, pyGet kvs "incidents".data = some (.jarr l) ∧
        l.filterMap incidentOfRaw = []) →
     parse_breach_snapshot text =
       .ok ⟨[], pstrip (pyStr (pyGetD kvs "synopsis".data (.jstr []))), [], "A", "Low"⟩) := by
  have h0 : parse_breach_snapshot text = structuredResult kvs := by
    rw [parse_breach_snapshot, h]
  refine ⟨h0, fun hinc => ?_⟩
  rw [h0, structuredResult]
  rcases hinc with hnone | ⟨l, hsome, hnil⟩
  · have hget : pyGetD kvs "incidents".data (.jarr []) = .jarr [] := by
      rw [pyGetD, hnone]; rfl
    rw [hget]; rfl
  · have hget : pyGetD kvs "incidents".data (.jarr []) = .jarr l := by
      rw [pyGetD, hsome]; rfl
    rw [hget]
    have h5 : (l.take 5).filterMap incidentOfRaw = [] := by
      rw [List.filterMap_eq_nil_iff] at hnil ⊢
      intro a ha
      exact hnil a (List.take_subset 5 l ha)
    simp only [pySlice5, h5]
    rfl

/-- C10 witness: a strict-JSON snapshot with an empty incident list. -/
theorem C10_structured_branch_witness :
    parse_breach_snapshot "\x7b\"synopsis\": \" all clear \", \"incidents\": []\x7d".data =
      .ok ⟨[], "all clear".data, [], "A", "Low"⟩ := by
  have h := (C10_structured_branch
    "\x7b\"synopsis\": \" all clear \", \"incidents\": []\x7d".data
    [("synopsis".data, .jstr " all clear ".data), ("incidents".data, .jarr [])]
    (by rfl)).2 (Or.inr ⟨[], by rfl, by rfl⟩)
  exact h

/-! ### Helper lemmas for the highlighter claim -/

theorem escChars_no_angle (c : Char) : '<' ∉ escChars c ∧ '>' ∉ escChars c := by
  rw [escChars]
  split_ifs with h1 h2 h3 h4 h5
  · exact (by decide)
  · exact (by decide)
  · exact (by decide)
  · exact (by decide)
  · exact (by decide)
  · simp only [List.mem_singleton]
    exact ⟨fun e => h2 e.symm, fun e => h3 e.symm⟩

theorem escapeHtml_no_angle : ∀ s : List Char, '<' ∉ escapeHtml s ∧ '>' ∉ escapeHtml s
  | [] => by simp [escapeHtml]
  | c :: s => by
    have ih := escapeHtml_no_angle s
    have hc := escChars_no_angle c
    rw [escapeHtml]
    simp only [List.mem_append]
    exact ⟨fun h => h.elim (fun h => hc.1 h) (fun h => ih.1 h),
           fun h => h.elim (fun h => hc.2 h) (fun h => ih.2 h)⟩

theorem escapeHtml_append : ∀ a b : List Char,
    escapeHtml (a ++ b) = escapeHtml a ++ escapeHtml b
  | [], _ => by simp [escapeHtml]
  | c :: a, b => by
    rw [List.cons_append, escapeHtml, escapeHtml, escapeHtml_append a b, List.append_assoc]

theorem stripTags_nil : stripTags [] = [] := by rw [stripTags]

theorem stripTags_cons_keep {c : Char} (h : ¬ c = '<') (t : List Char) :
    stripTags (c :: t) = c :: stripTags t := by
  rw [stripTags, if_neg h]

theorem stripTags_append_of_no_angle :
    ∀ {s : List Char}, '<' ∉ s → ∀ t, stripTags (s ++ t) = s ++ stripTags t
  | [], _, t => by simp
  | c :: s, h, t => by
    have hc : ¬ c = '<' := fun e => h (e ▸ List.mem_cons_self c s)
    rw [List.cons_append, stripTags_cons_keep hc,
      stripTags_append_of_no_angle (fun hm => h (List.mem_cons_of_mem c hm)) t,
      List.cons_append]

theorem dropWhile_append_of_all {p : Char → Bool} :
    ∀ (mid l : List Char), (∀ c ∈ mid, p c = true) →
      List.dropWhile p (mid ++ l) = List.dropWhile p l
  | [], _, _ => by simp
  | c :: mid, l, h => by
    rw [List.cons_append, List.dropWhile_cons, if_pos (h c (List.mem_cons_self c mid))]
    exact dropWhile_append_of_all mid l (fun x hx => h x (List.mem_cons_of_mem c hx))

theorem stripTags_angle_append (mid : List Char) (hmid : ∀ c ∈ mid, (!(c == '>')) = true)
    (t : List Char) : stripTags (('<' :: (mid ++ ['>'])) ++ t) = stripTags t := by
  rw [List.cons_append, stripTags, if_pos rfl, dropTag]
  rw [List.append_assoc, List.singleton_append,
    dropWhile_append_of_all mid ('>' :: t) hmid]
  rw [List.dropWhile_cons]
  simp

theorem stripTags_markOpen (t : List Char) : stripTags (markOpen ++ t) = stripTags t := by
  have h := stripTags_angle_append "mark class=\x27danger-mark\x27".data (by decide) t
  exact h

theorem stripTags_markClose (t : List Char) : stripTags (markClose ++ t) = stripTags t := by
  have h := stripTags_angle_append "/mark".data (by decide) t
  exact h

theorem stripTags_preOpen (t : List Char) : stripTags (preOpen ++ t) = stripTags t := by
  have h := stripTags_angle_append "pre class=\x27policy-text\x27".data (by decide) t
  exact h

theorem stripTags_preClose (t : List Char) : stripTags (preClose ++ t) = stripTags t := by
  have h := stripTags_angle_append "/pre".data (by decide) t
  exact h

theorem unescape_escape : ∀ s : List Char, unescapeHtml (escapeHtml s) = s
  | [] => by rw [escapeHtml, unescapeHtml]
  | c :: s => by
    have ih := unescape_escape s
    rw [escapeHtml]
    by_cases h1 : c = '&'
    · subst h1
      rw [show escChars '&' = "&amp;".data from rfl]
      simp only [List.cons_append, List.nil_append]
      rw [unescapeHtml]
      simp [ih]
    · by_cases h2 : c = '<'
      · subst h2
        rw [show escChars '<' = "&lt;".data from rfl]
        simp only [List.cons_append, List.nil_append]
        rw [unescapeHtml]
        simp [ih]
      · by_cases h3 : c = '>'
        · subst h3
          rw [show escChars '>' = "&gt;".data from rfl]
          simp only [List.cons_append, List.nil_append]
          rw [unescapeHtml]
          simp [ih]
        · by_cases h4 : c = '"'
          · subst h4
            rw [show escChars '"' = "&#34;".data from rfl]
            simp only [List.cons_append, List.nil_append]
            rw [unescapeHtml]
            simp [ih]
          · by_cases h5 : c = squote
            · subst h5
              rw [show escChars squote = "&#39;".data from rfl]
              simp only [List.cons_append, List.nil_append]
              rw [unescapeHtml]
              simp [ih]
            · rw [show escChars c = [c] from by rw [escChars]; simp [h1, h2, h3, h4, h5]]
              rw [List.singleton_append, unescapeHtml.eq_def]
              simp [h1, ih]

theorem countWs_le (text : List Char) (pos : Nat) :
    countWs text pos ≤ text.length - pos := by
  rw [countWs]
  have h1 : ((text.drop pos).takeWhile isPySpace).length ≤ (text.drop pos).length :=
    (List.takeWhile_sublist isPySpace).length_le
  have h2 : (text.drop pos).length = text.length - pos := List.length_drop pos text
  omega

theorem matchItems_bounds :
    ∀ (items : List RItem) (text : List Char) (pos e : Nat),
      pos ≤ text.length → matchItems items text pos = some e →
      pos ≤ e ∧ e ≤ text.length
  | [], _, _, _, hp, h => by
    rw [matchItems] at h
    cases h
    exact ⟨le_refl _, hp⟩
  | RItem.wordB :: rest, text, pos, e, hp, h => by
    rw [matchItems] at h
    split at h
    · exact matchItems_bounds rest text pos e hp h
    · cases h
  | RItem.lit c :: rest, text, pos, e, hp, h => by
    rw [matchItems] at h
    rcases htc : text[pos]? with _ | tc
    · simp only [htc] at h; cases h
    · simp only [htc] at h
      split at h
      · have hlt : pos < text.length := (List.getElem?_eq_some.1 htc).1
        have := matchItems_bounds rest text (pos + 1) e (by omega) h
        omega
      · cases h
  | RItem.ws1 :: rest, text, pos, e, hp, h => by
    rw [matchItems] at h
    split at h
    · cases h
    · obtain ⟨j, hj, hm⟩ := List.exists_of_findSome?_eq_some h
      have hjn : j < countWs text pos := by
        have := List.mem_reverse.1 hj
        exact List.mem_range.1 this
      have hle := countWs_le text pos
      have := matchItems_bounds rest text (pos + j + 1) e (by omega) hm
      omega

theorem matchAlt_bounds (pats : List (List RItem)) (text : List Char) (pos e : Nat)
    (hp : pos ≤ text.length) (h : matchAlt pats text pos = some e) :
    pos ≤ e ∧ e ≤ text.length := by
  rw [matchAlt] at h
  obtain ⟨items, _, hm⟩ := List.exists_of_findSome?_eq_some h
  exact matchItems_bounds items text pos e hp hm

theorem SpansOK.weaken {len c c' : Nat} {sp : List (Nat × Nat)}
    (h : SpansOK len c' sp) (hc : c ≤ c') : SpansOK len c sp := by
  cases h with
  | nil => exact SpansOK.nil c
  | cons _ s e rest h1 h2 h3 h4 => exact SpansOK.cons c s e rest (by omega) h2 h3 h4

theorem scanFrom_spansOK (pats : List (List RItem)) (text : List Char) :
    ∀ (fuel pos : Nat), pos ≤ text.length →
      SpansOK text.length pos (scanFrom pats text fuel pos)
  | 0, pos, _ => by rw [scanFrom]; exact SpansOK.nil pos
  | Nat.succ fuel, pos, hp => by
    rw [scanFrom]
    split
    · exact SpansOK.nil pos
    · rcases hma : matchAlt pats text pos with _ | e
      · simp only [hma]
        split
        · exact SpansOK.nil pos
        · exact (scanFrom_spansOK pats text fuel (pos + 1) (by omega)).weaken (by omega)
      · simp only [hma]
        have hb := matchAlt_bounds pats text pos e hp hma
        split
        · refine SpansOK.cons pos pos pos _ (le_refl _) (le_refl _) hp ?_
          split
          · exact SpansOK.nil pos
          · exact (scanFrom_spansOK pats text fuel (pos + 1) (by omega)).weaken (by omega)
        · exact SpansOK.cons pos pos e _ (le_refl _) (by omega) (by omega)
            (scanFrom_spansOK pats text fuel e (by omega))

theorem scanFrom_matches (pats : List (List RItem)) (text : List Char) :
    ∀ (fuel pos : Nat) (sp : Nat × Nat), sp ∈ scanFrom pats text fuel pos →
      matchAlt pats text sp.1 = some sp.2
  | 0, pos, sp, h => by rw [scanFrom] at h; cases h
  | Nat.succ fuel, pos, sp, h => by
    rw [scanFrom] at h
    by_cases hlen : text.length < pos
    · rw [if_pos hlen] at h; cases h
    · rw [if_neg hlen] at h
      rcases hma : matchAlt pats text pos with _ | e <;> simp only [hma] at h
      · by_cases h2 : text.length ≤ pos
        · rw [if_pos h2] at h; cases h
        · rw [if_neg h2] at h
          exact scanFrom_matches pats text fuel (pos + 1) sp h
      · by_cases he : e = pos
        · rw [if_pos he] at h
          rcases List.mem_cons.1 h with rfl | h2
          · rw [he] at hma; simpa using hma
          · by_cases h3 : text.length ≤ pos
            · rw [if_pos h3] at h2; cases h2
            · rw [if_neg h3] at h2
              exact scanFrom_matches pats text fuel (pos + 1) sp h2
        · rw [if_neg he] at h
          rcases List.mem_cons.1 h with rfl | h2
          · exact hma
          · exact scanFrom_matches pats text fuel e sp h2

theorem pySlice_append (text : List Char) {a b c : Nat} (hab : a ≤ b) (hbc : b ≤ c) :
    pySlice text a b ++ pySlice text b c = pySlice text a c := by
  rw [pySlice, pySlice, pySlice]
  rw [show c - a = (b - a) + (c - b) by omega]
  rw [List.take_add]
  congr 1
  rw [List.drop_drop]
  congr 2
  omega

theorem pySlice_whole (text : List Char) : pySlice text 0 text.length = text := by
  rw [pySlice, List.drop_zero, Nat.sub_zero, List.take_length]

theorem pySlice_empty (text : List Char) {a b : Nat} (h : b ≤ a) :
    pySlice text a b = [] := by
  rw [pySlice, show b - a = 0 by omega, List.take_zero]

theorem stripTags_render (text : List Char) :
    ∀ (spans : List (Nat × Nat)) (cursor : Nat), SpansOK text.length cursor spans →
      stripTags ((renderLoop text spans cursor).flatten ++ preClose) =
        escapeHtml (pySlice text cursor text.length)
  | [], cursor, _ => by
    rw [renderLoop]
    by_cases h : cursor < text.length
    · rw [if_pos h]
      rw [show List.flatten [escapeHtml (pySlice text cursor text.length)] =
            escapeHtml (pySlice text cursor text.length) from by simp]
      rw [stripTags_append_of_no_angle (escapeHtml_no_angle _).1 preClose]
      rw [show stripTags preClose = [] from by
        have := stripTags_preClose []
        simpa [stripTags_nil] using this]
      simp
    · rw [if_neg h]
      rw [show pySlice text cursor text.length = [] from
        pySlice_empty text (by omega)]
      rw [show escapeHtml [] = [] from rfl]
      rw [show List.flatten ([] : List (List Char)) = [] from rfl, List.nil_append]
      have := stripTags_preClose []
      simpa [stripTags_nil] using this
  | (s, e) :: rest, cursor, hok => by
    rcases hok with _ | ⟨_, _, _, _, hcs, hse, hel, hrest⟩
    rw [renderLoop]
    have hgap : List.flatten (if cursor < s then [escapeHtml (pySlice text cursor s)]
        else []) = escapeHtml (pySlice text cursor s) := by
      split
      · simp
      · rw [show pySlice text cursor s = [] from pySlice_empty text (by omega)]
        rfl
    rw [List.flatten_append, List.flatten_append, hgap]
    rw [show List.flatten [markOpen ++ escapeHtml (pySlice text s e) ++ markClose] =
      markOpen ++ escapeHtml (pySlice text s e) ++ markClose from by simp]
    simp only [List.append_assoc]
    rw [stripTags_append_of_no_angle (escapeHtml_no_angle (pySlice text cursor s)).1]
    rw [stripTags_markOpen]
    rw [stripTags_append_of_no_angle (escapeHtml_no_angle (pySlice text s e)).1]
    rw [stripTags_markClose]
    rw [stripTags_render text rest e hrest]
    rw [← escapeHtml_append, ← escapeHtml_append]
    rw [pySlice_append text hse hel, pySlice_append text hcs (by omega)]

/-- C7: the highlighter loses no information beyond escaping and mark
wrapping — de-marking and unescaping its output reconstructs the input
exactly for every text and flaw list; when no high- or medium-severity term
exists the output is the fully escaped text with no marks (escaped text
contains no `<` at all); and every marked span is a match of the combined
pattern built from the high/medium-severity terms only. -/
theorem C7_highlight_roundtrip (text : List Char) (flaws : List Flaw) :
    demarkUnescape (highlight_dangers text flaws) = text ∧
    ((∀ f ∈ flaws, f.severity ≠ "high" ∧ f.severity ≠ "medium") →
      highlight_dangers text flaws = preOpen ++ escapeHtml text ++ preClose ∧
      '<' ∉ escapeHtml text) ∧
    (∀ sp ∈ highlightSpans text flaws,
      matchAlt (sortedPatterns (dangerousTerms flaws)) text sp.1 = some sp.2) := by
  refine ⟨?_, ?_, ?_⟩
  · rw [demarkUnescape, highlight_dangers]
    by_cases hd : (dangerousTerms flaws).isEmpty
    · rw [if_pos hd]
      simp only [List.append_assoc]
      rw [stripTags_preOpen]
      rw [stripTags_append_of_no_angle (escapeHtml_no_angle text).1]
      rw [show stripTags preClose = [] from by
        have := stripTags_preClose []
        simpa [stripTags_nil] using this]
      rw [List.append_nil]
      exact unescape_escape text
    · rw [if_neg hd]
      simp only [List.append_assoc]
      rw [stripTags_preOpen]
      rw [stripTags_render text (highlightSpans text flaws) 0
        (by rw [highlightSpans]
            exact scanFrom_spansOK _ text _ 0 (Nat.zero_le _))]
      rw [pySlice_whole]
      exact unescape_escape text
  · intro hno
    have hterms : dangerousTerms flaws = [] := by
      rw [dangerousTerms]
      rw [show flaws.filterMap (fun f =>
          if f.severity = "high" ∨ f.severity = "medium" then some f.term else none) =
          [] from by
        rw [List.filterMap_eq_nil_iff]
        intro f hf
        rcases hno f hf with ⟨h1, h2⟩
        simp [h1, h2]]
      rfl
    refine ⟨?_, (escapeHtml_no_angle text).1⟩
    rw [highlight_dangers, if_pos (by rw [hterms]; rfl)]
  · intro sp hsp
    rw [highlightSpans] at hsp
    exact scanFrom_matches _ text _ 0 sp hsp

/-- C7 witness: the no-dangerous-term shape on a concrete text, and the
round-trip on the spec's third-party example, through the theorem. -/
theorem C7_highlight_roundtrip_witness :
    highlight_dangers "a & b".data [] =
      preOpen ++ escapeHtml "a & b".data ++ preClose ∧
    demarkUnescape (highlight_dangers
      "We share data with third party advertisers".data
      [⟨"2.Sharing".data, "X".data, "third party".data, 2, "high", "r"⟩]) =
      "We share data with third party advertisers".data :=
  ⟨((C7_highlight_roundtrip "a & b".data []).2.1 (by simp)).1,
   (C7_highlight_roundtrip "We share data with third party advertisers".data
     [⟨"2.Sharing".data, "X".data, "third party".data, 2, "high", "r"⟩]).1⟩

end Audit
